import Mathlib

/-!
Shallow embedding of the `speak` repository's server logic
(`src/server/routes.ts`, canonical second variant starting at line 648,
and `src/server/storage.ts`), together with theorems settling the
claims about it.

Conventions of the embedding:
* JavaScript `Map`s become association lists with first-match lookup;
  `Map.set` puts the fresh binding in front and drops the stale one.
* The `usedPaymentHashes` `Set<string>` becomes a duplicate-free
  `List String` with `contains` / `erase`.
* `BigInt` wei amounts and `Date.now()` timestamps become `Nat`
  (arbitrary precision, like `BigInt`; division truncates in both).
* Awaited chain / database calls become fields of an oracle record
  (`ChainEnv`); a call that may throw is an `Except String`, carrying
  the thrown error message that the route's `catch` block inspects.
* JSON responses become a status code plus an ordered field list, with
  exactly the keys each `res.json` literal in the source carries.
-/

namespace Speak

/-- Vote type enumeration: `'like' | 'dislike'` from `shared/schema.ts`. -/
inductive VoteType where
  | like
  | dislike
deriving DecidableEq, Repr

/-- A row of the `votes` table (`shared/schema.ts` lines 53-58): id,
confessionId, visitorId, voteType.  Ids are modelled as `Nat` issued by a
fresh-id counter, standing in for `gen_random_uuid()`. -/
structure Vote where
  id : Nat
  confessionId : String
  visitorId : String
  voteType : VoteType
deriving DecidableEq, Repr

/-- A row of the `confessions` table (`shared/schema.ts` lines 28-41).
`likes` and `dislikes` are `Int` because the SQL increment / decrement in
`storage.ts` applies signed deltas with no floor. -/
structure Confession where
  id : String
  originalText : String
  displayText : String
  category : String
  timestamp : Nat
  txHash : Option String
  isAnchored : Bool
  isHidden : Bool
  likes : Int
  dislikes : Int
  sentimentScore : Nat
  authorId : Option String
deriving DecidableEq, Repr

/-- The relational store reachable from `DatabaseStorage`: the
`confessions` and `votes` tables plus the fresh-id source for vote rows. -/
structure Db where
  confessions : List Confession
  votes : List Vote
  nextVoteId : Nat
deriving DecidableEq, Repr

/-- `DatabaseStorage.getVote` (`storage.ts` lines 68-73): first row whose
(confessionId, visitorId) matches. -/
def getVote (db : Db) (confessionId visitorId : String) : Option Vote :=
  db.votes.find? (fun w => w.confessionId == confessionId && w.visitorId == visitorId)

/-- `DatabaseStorage.getConfession` (`storage.ts` lines 42-45). -/
def getConfession (db : Db) (id : String) : Option Confession :=
  db.confessions.find? (fun c => c.id == id)

/-- The `db.update(confessions).set(likes + dl, dislikes + dd).where(id = c)`
pattern of `storage.ts`: add the deltas to every row whose id matches. -/
def bumpCounters (db : Db) (confessionId : String) (dl dd : Int) : Db :=
  { db with
    confessions := db.confessions.map (fun c =>
      if c.id == confessionId then
        { c with likes := c.likes + dl, dislikes := c.dislikes + dd }
      else c) }

/-- `DatabaseStorage.createOrUpdateVote` (`storage.ts` lines 75-109):
no-op when the same type is repeated; in-place type switch moving one
count from each counter; otherwise insert a fresh row and bump the
matching counter. -/
def createOrUpdateVote (db : Db) (confessionId visitorId : String) (voteType : VoteType) : Db :=
  match getVote db confessionId visitorId with
  | some existingVote =>
    if existingVote.voteType == voteType then db
    else
      let likeDelta : Int := if voteType == VoteType.like then 1 else -1
      let dislikeDelta : Int := if voteType == VoteType.dislike then 1 else -1
      let db1 := { db with
        votes := db.votes.map (fun w =>
          if w.id == existingVote.id then { w with voteType := voteType } else w) }
      bumpCounters db1 confessionId likeDelta dislikeDelta
  | none =>
    let db1 := { db with
      votes := db.votes ++ [⟨db.nextVoteId, confessionId, visitorId, voteType⟩],
      nextVoteId := db.nextVoteId + 1 }
    if voteType == VoteType.like then bumpCounters db1 confessionId 1 0
    else bumpCounters db1 confessionId 0 1

/-- `DatabaseStorage.removeVote` (`storage.ts` lines 111-126): early
return when no row exists, otherwise delete the row and decrement the
counter matching its type. -/
def removeVote (db : Db) (confessionId visitorId : String) : Db :=
  match getVote db confessionId visitorId with
  | none => db
  | some existingVote =>
    let db1 := { db with votes := db.votes.filter (fun w => w.id != existingVote.id) }
    if existingVote.voteType == VoteType.like then bumpCounters db1 confessionId (-1) 0
    else bumpCounters db1 confessionId 0 (-1)

/-- Number of vote rows of a given type referencing a confession id. -/
def voteCount (db : Db) (confessionId : String) (t : VoteType) : Nat :=
  (db.votes.filter (fun w => w.confessionId == confessionId && w.voteType == t)).length

/-- Vote-table invariant: row ids are pairwise distinct and below the
fresh-id counter, each (confessionId, visitorId) pair has at most one
row, and every confession's counters equal the row counts of each type. -/
def VoteInvariant (db : Db) : Prop :=
  db.votes.Pairwise (fun a b => a.id ≠ b.id) ∧
  (∀ w ∈ db.votes, w.id < db.nextVoteId) ∧
  db.votes.Pairwise (fun a b => a.confessionId ≠ b.confessionId ∨ a.visitorId ≠ b.visitorId) ∧
  (∀ c ∈ db.confessions,
    c.likes = (voteCount db c.id VoteType.like : Int) ∧
    c.dislikes = (voteCount db c.id VoteType.dislike : Int))

/-! ## Rate limiter (`routes.ts` lines 697-727) -/

/-- One record of the `submissionRateLimit` map: count plus window reset
timestamp. -/
structure RateRecord where
  count : Nat
  resetAt : Nat
deriving DecidableEq, Repr

/-- The `submissionRateLimit` map, as an association list keyed by IP. -/
abbrev RateMap := List (String × RateRecord)

/-- First-match lookup, the semantics of `Map.get`. -/
def rateGet (m : RateMap) (ip : String) : Option RateRecord :=
  (m.find? (fun kv => kv.1 == ip)).map (fun kv => kv.2)

/-- `Map.set`: bind the key to the value, dropping any previous binding. -/
def rateSet (m : RateMap) (ip : String) (r : RateRecord) : RateMap :=
  (ip, r) :: m.filter (fun kv => kv.1 != ip)

/-- `MAX_SUBMISSIONS_PER_HOUR` (`routes.ts` line 700). -/
def MAX_SUBMISSIONS_PER_HOUR : Nat := 10

/-- `checkRateLimit` (`routes.ts` lines 702-717), with `Date.now()` and
the map passed explicitly; returns the allow verdict and the new map. -/
def checkRateLimit (now : Nat) (m : RateMap) (ip : String) : Bool × RateMap :=
  match rateGet m ip with
  | none => (true, rateSet m ip ⟨1, now + 60 * 60 * 1000⟩)
  | some record =>
    if record.resetAt < now then
      (true, rateSet m ip ⟨1, now + 60 * 60 * 1000⟩)
    else if record.count ≥ MAX_SUBMISSIONS_PER_HOUR then
      (false, m)
    else
      (true, rateSet m ip ⟨record.count + 1, record.resetAt⟩)

/-- `cleanupRateLimits` (`routes.ts` lines 720-727): drop every record
whose reset time is strictly in the past. -/
def cleanupRateLimits (now : Nat) (m : RateMap) : RateMap :=
  m.filter (fun kv => !(kv.2.resetAt < now))

/-! ## JSON responses -/

/-- Atomic JSON values appearing in the modelled responses; a persisted
confession row can also appear as a value (the `confession` field of the
success payload, or a `\x7b...updated\x7d` spread). -/
inductive JVal where
  | s (v : String)
  | n (v : Int)
  | b (v : Bool)
  | nul
  | conf (c : Confession)
deriving DecidableEq, Repr

/-- A JSON response: status code plus the ordered fields of the
`res.json(...)` object literal. -/
structure Resp where
  status : Nat
  fields : List (String × JVal)
deriving DecidableEq, Repr

/-- Keys present in a response object. -/
def Resp.keys (r : Resp) : List String := r.fields.map (fun kv => kv.1)

/-- Lookup of a response field. -/
def Resp.get (r : Resp) (k : String) : Option JVal :=
  (r.fields.find? (fun kv => kv.1 == k)).map (fun kv => kv.2)

/-! ## Relayer submission orchestrator (`routes.ts` lines 1146-1329) -/

/-- `confessionCategories` (`shared/schema.ts` line 25). -/
def confessionCategories : List String :=
  ["Greed", "Regret", "FOMO", "Rug", "Wisdom", "Other"]

/-- Character-list prefix test (helper for `String.includes` and the
hash pattern). -/
def listMatchesAt : List Char → List Char → Bool
  | [], _ => true
  | _ :: _, [] => false
  | a :: as, b :: bs => a == b && listMatchesAt as bs

/-- Character-list substring test (helper for `String.includes`). -/
def listContainsSub (needle : List Char) : List Char → Bool
  | [] => listMatchesAt needle []
  | c :: t => listMatchesAt needle (c :: t) || listContainsSub needle t

/-- JavaScript `haystack.includes(needle)` on strings. -/
def strIncludes (haystack needle : String) : Bool :=
  listContainsSub needle.toList haystack.toList

/-- ASCII lower-casing of one character, as JavaScript `.toLowerCase()`
acts on the ASCII addresses and hashes handled here. -/
def charLower (c : Char) : Char :=
  if 'A' ≤ c && c ≤ 'Z' then Char.ofNat (c.toNat + 32) else c

/-- JavaScript `.toLowerCase()` on a string. -/
def jsToLower (s : String) : String :=
  ⟨s.toList.map charLower⟩

/-- Hex-digit test for the payment-hash pattern. -/
def isHexDigit (c : Char) : Bool :=
  (c ≥ 'a' && c ≤ 'f') || (c ≥ 'A' && c ≤ 'F') || (c ≥ '0' && c ≤ '9')

/-- The zod pattern `^0x[a-fA-F0-9]\x7b64\x7d$` on `paymentTxHash`. -/
def isTxHashFormat (s : String) : Bool :=
  s.toList.length == 66 && listMatchesAt ("0x").toList s.toList &&
  (s.toList.drop 2).all isHexDigit

/-- Request body of `POST /api/relayer/submit`. -/
structure SubmitReq where
  confessionText : String
  category : String
  paymentTxHash : String
deriving DecidableEq, Repr

/-- `relayerSubmitSchema` (`routes.ts` lines 1149-1153): text length in
1..1000, category in the fixed enumeration, hash matching the pattern. -/
def relayerSubmitSchema (r : SubmitReq) : Bool :=
  1 ≤ r.confessionText.length && r.confessionText.length ≤ 1000 &&
  confessionCategories.contains r.category &&
  isTxHashFormat r.paymentTxHash

/-- The user's payment transaction as returned by `getTransaction`:
destination (`to`, null for contract creation), transferred value, sender. -/
structure PaymentTx where
  toAddr : Option String
  value : Nat
  fromAddr : String
deriving DecidableEq, Repr

/-- Receipt status of a mined transaction. -/
inductive ReceiptStatus where
  | success
  | reverted
deriving DecidableEq, Repr

/-- Oracle for the awaited external-world calls of one submission, in the
order the handler performs them.  `Except String` carries the message of
a thrown error, which the route's `catch` block inspects. -/
structure ChainEnv where
  /-- `getWalletClient()` is non-null iff `RELAYER_PRIVATE_KEY` is set,
  in which case `getRelayerAddress()` yields the relayer address. -/
  relayerAddress : Option String
  /-- `CONTRACT_ADDRESS` (`VITE_CONTRACT_ADDRESS`) is configured. -/
  contractConfigured : Bool
  /-- `readContract getFeeInWei`; `none` means the read threw (the local
  catch then keeps the hardcoded default fee). -/
  feeRead : Option Nat
  /-- `getTransaction` + `getTransactionReceipt` for the payment hash;
  `none` means one of the two threw (local catch: payment not found).
  The receipt itself is optional, mirroring the `!paymentReceipt` guard. -/
  paymentLookup : Option (PaymentTx × Option ReceiptStatus)
  /-- `getBalance` for the relayer wallet, may throw to the outer catch. -/
  balanceRead : Except String Nat
  /-- `sendTransaction` from the relayer wallet, returning the relayer's
  transaction hash, may throw to the outer catch. -/
  sendTx : Except String String
  /-- `waitForTransactionReceipt` (60 s timeout): final status, or a
  thrown timeout / RPC error. -/
  confirm : Except String ReceiptStatus
  /-- `storage.createConfession`: `none` on success, `some msg` when the
  insert throws `msg`. -/
  dbFail : Option String
  /-- Database-assigned id of the inserted confession row. -/
  freshConfessionId : String
  /-- Database-assigned creation timestamp of the inserted row. -/
  insertTimestamp : Nat

/-- Process-wide mutable server state shared by requests: the rate-limit
map, the `usedPaymentHashes` set, and the relational store. -/
structure ServerState where
  rateMap : RateMap
  used : List String
  db : Db
deriving DecidableEq, Repr

/-- Result of one orchestrator run: the JSON response, the state after
the run, and whether `sendTransaction` was executed successfully (the
relayer transaction was broadcast). -/
structure SubmitResult where
  resp : Resp
  state : ServerState
  broadcast : Bool
deriving DecidableEq, Repr

/-- The confession row inserted by the success path (`routes.ts` lines
1294-1301) together with the schema defaults of `shared/schema.ts`:
sentimentScore 50, isAnchored true, txHash = the relayer's hash, likes,
dislikes 0, isHidden false, no author. -/
def relayerConfessionRow (env : ChainEnv) (req : SubmitReq) (txHash : String) : Confession :=
  { id := env.freshConfessionId
    originalText := req.confessionText
    displayText := req.confessionText
    category := req.category
    timestamp := env.insertTimestamp
    txHash := some txHash
    isAnchored := true
    isHidden := false
    likes := 0
    dislikes := 0
    sentimentScore := 50
    authorId := none }

/-- The `catch` block of the submit handler (`routes.ts` lines 1312-1328)
for a non-zod thrown error `e`: 409 when the message mentions
`Already exists`, otherwise 500 with a `fallback` flag.  The
`usedPaymentHashes` set is left untouched. -/
def submitCatch (e : String) (st : ServerState) (broadcast : Bool) : SubmitResult :=
  if strIncludes e ("Already exists") then
    ⟨⟨409, [("error", JVal.s ("This confession has already been anchored"))]⟩, st, broadcast⟩
  else
    ⟨⟨500, [("error", JVal.s e), ("fallback", JVal.b true)]⟩, st, broadcast⟩

/-- `POST /api/relayer/submit` (`routes.ts` lines 1158-1329), with the
clock, caller IP, oracle, and shared state passed explicitly. -/
def relayerSubmit (env : ChainEnv) (now : Nat) (clientIp : String)
    (req : SubmitReq) (st : ServerState) : SubmitResult :=
  let rm0 := cleanupRateLimits now st.rateMap
  let res := checkRateLimit now rm0 clientIp
  let st1 : ServerState := { st with rateMap := res.2 }
  if !res.1 then
    ⟨⟨429, [("error", JVal.s ("Rate limit exceeded. Please try again later.")),
            ("retryAfter", JVal.n 3600)]⟩, st1, false⟩
  else if !relayerSubmitSchema req then
    ⟨⟨400, [("error", JVal.s ("Invalid data")), ("details", JVal.nul)]⟩, st1, false⟩
  else if !(env.relayerAddress.isSome && env.contractConfigured) then
    ⟨⟨503, [("error", JVal.s ("Relayer not available"))]⟩, st1, false⟩
  else if st1.used.contains (jsToLower req.paymentTxHash) then
    ⟨⟨400, [("error", JVal.s ("This payment has already been used for a confession"))]⟩,
      st1, false⟩
  else
    let feeWei := env.feeRead.getD 330000000000000
    match env.paymentLookup with
    | none =>
      ⟨⟨400, [("error", JVal.s ("Payment transaction not found. Please wait for confirmation and try again."))]⟩,
        st1, false⟩
    | some (paymentTx, paymentReceipt) =>
      if paymentReceipt != some ReceiptStatus.success then
        ⟨⟨400, [("error", JVal.s ("Payment transaction failed or not confirmed"))]⟩, st1, false⟩
      else
        match env.relayerAddress with
        | none => ⟨⟨503, [("error", JVal.s ("Relayer not configured"))]⟩, st1, false⟩
        | some relayerAddress =>
          if paymentTx.toAddr.map jsToLower != some (jsToLower relayerAddress) then
            ⟨⟨400, [("error", JVal.s ("Payment must be sent to the relayer wallet")),
                    ("expected", JVal.s relayerAddress),
                    ("received", match paymentTx.toAddr with
                                 | some a => JVal.s a
                                 | none => JVal.nul)]⟩, st1, false⟩
          else
            let minPayment := feeWei * 90 / 100
            if paymentTx.value < minPayment then
              ⟨⟨400, [("error", JVal.s ("Insufficient payment amount")),
                      ("required", JVal.s (toString feeWei)),
                      ("received", JVal.s (toString paymentTx.value))]⟩, st1, false⟩
            else
              let st2 : ServerState := { st1 with used := (jsToLower req.paymentTxHash) :: st1.used }
              match env.balanceRead with
              | Except.error e => submitCatch e st2 false
              | Except.ok balance =>
                if balance < feeWei + 100000000000000 then
                  let st3 : ServerState :=
                    { st2 with used := st2.used.erase (jsToLower req.paymentTxHash) }
                  ⟨⟨503, [("error", JVal.s ("Relayer wallet needs more funding. Please try again later.")),
                          ("relayerAddress", JVal.s relayerAddress)]⟩, st3, false⟩
                else
                  match env.sendTx with
                  | Except.error e => submitCatch e st2 false
                  | Except.ok txHash =>
                    match env.confirm with
                    | Except.error e => submitCatch e st2 true
                    | Except.ok ReceiptStatus.reverted =>
                      submitCatch ("Transaction reverted") st2 true
                    | Except.ok ReceiptStatus.success =>
                      match env.dbFail with
                      | some e => submitCatch e st2 true
                      | none =>
                        let confession := relayerConfessionRow env req txHash
                        let st4 : ServerState :=
                          { st2 with db := { st2.db with
                            confessions := st2.db.confessions ++ [confession] } }
                        ⟨⟨200, [("success", JVal.b true),
                                ("confession", JVal.conf confession),
                                ("txHash", JVal.s txHash),
                                ("message", JVal.s ("Confession anchored anonymously"))]⟩,
                          st4, true⟩

/-! ## Admin auth protocol (`routes.ts` lines 729-740 and 963-1009) -/

/-- One record of the `adminNonces` map. -/
structure NonceData where
  nonce : String
  expiresAt : Nat
deriving DecidableEq, Repr

/-- One record of the `adminSessions` map. -/
structure SessionData where
  walletAddress : String
  expiresAt : Nat
deriving DecidableEq, Repr

/-- The `adminSessions` and `adminNonces` maps; nonces are keyed by
lower-cased wallet address, sessions by the opaque token. -/
structure AdminState where
  sessions : List (String × SessionData)
  nonces : List (String × NonceData)
deriving DecidableEq, Repr

/-- First-match lookup in an association list (`Map.get`). -/
def alistGet {α : Type} (m : List (String × α)) (k : String) : Option α :=
  (m.find? (fun kv => kv.1 == k)).map (fun kv => kv.2)

/-- `Map.set` on an association list. -/
def alistSet {α : Type} (m : List (String × α)) (k : String) (v : α) : List (String × α) :=
  (k, v) :: m.filter (fun kv => kv.1 != k)

/-- `Map.delete` on an association list. -/
def alistDelete {α : Type} (m : List (String × α)) (k : String) : List (String × α) :=
  m.filter (fun kv => kv.1 != k)

/-- `cleanupExpiredSessions` (`routes.ts` lines 732-740): drop sessions
and nonces whose expiry is strictly in the past. -/
def cleanupExpiredSessions (now : Nat) (st : AdminState) : AdminState :=
  { sessions := st.sessions.filter (fun kv => !(kv.2.expiresAt < now))
    nonces := st.nonces.filter (fun kv => !(kv.2.expiresAt < now)) }

/-- Request body of `POST /api/admin/verify`; `none` models an absent
field (the handler also treats the empty string as missing, JavaScript
falsiness). -/
structure VerifyReq where
  walletAddress : Option String
  signature : Option String
  message : Option String
deriving DecidableEq, Repr

/-- JavaScript truthiness for an optional string field. -/
def truthy : Option String → Option String
  | none => none
  | some s => if s.isEmpty then none else some s

/-- `POST /api/admin/verify` (`routes.ts` lines 963-1009).  `sigOk`
stands for viem's `verifyMessage` over (address, message, signature);
`ownerAddress` is `ADMIN_WALLET_ADDRESS || CONTRACT_OWNER_ADDRESS`
(`none` when neither is configured); `newToken` is the random session
token minted on success. -/
def adminVerify (sigOk : String → String → String → Bool)
    (ownerAddress : Option String) (newToken : String) (now : Nat)
    (st : AdminState) (req : VerifyReq) : Resp × AdminState :=
  let st1 := cleanupExpiredSessions now st
  match truthy req.walletAddress, truthy req.signature, truthy req.message with
  | some walletAddress, some signature, some message =>
    match alistGet st1.nonces (jsToLower walletAddress) with
    | none => (⟨401, [("error", JVal.s ("Nonce expired or invalid"))]⟩, st1)
    | some nonceData =>
      if nonceData.expiresAt < now then
        (⟨401, [("error", JVal.s ("Nonce expired or invalid"))]⟩, st1)
      else if !strIncludes message nonceData.nonce then
        (⟨401, [("error", JVal.s ("Invalid nonce in message"))]⟩, st1)
      else if !sigOk walletAddress message signature then
        (⟨401, [("error", JVal.s ("Invalid signature"))]⟩, st1)
      else if (match ownerAddress with
               | some owner => (jsToLower walletAddress) != (jsToLower owner)
               | none => false) then
        (⟨403, [("error", JVal.s ("Not authorized as admin"))]⟩, st1)
      else
        let st2 : AdminState :=
          { sessions := alistSet st1.sessions newToken
              ⟨(jsToLower walletAddress), now + 60 * 60 * 1000⟩
            nonces := alistDelete st1.nonces (jsToLower walletAddress) }
        (⟨200, [("sessionToken", JVal.s newToken), ("expiresIn", JVal.n 3600)]⟩, st2)
  | _, _, _ => (⟨400, [("error", JVal.s ("Missing required fields"))]⟩, st1)

/-! ## Vote removal route (`routes.ts` lines 888-907) -/

/-- The `\x7b...updated\x7d` object spread: the confession row's columns
as JSON fields, or nothing when `updated` is undefined. -/
def spreadConfession : Option Confession → List (String × JVal)
  | none => []
  | some c =>
    [("id", JVal.s c.id),
     ("originalText", JVal.s c.originalText),
     ("displayText", JVal.s c.displayText),
     ("category", JVal.s c.category),
     ("timestamp", JVal.n c.timestamp),
     ("txHash", match c.txHash with | some h => JVal.s h | none => JVal.nul),
     ("isAnchored", JVal.b c.isAnchored),
     ("isHidden", JVal.b c.isHidden),
     ("likes", JVal.n c.likes),
     ("dislikes", JVal.n c.dislikes),
     ("sentimentScore", JVal.n c.sentimentScore),
     ("authorId", match c.authorId with | some a => JVal.s a | none => JVal.nul)]

/-- `DELETE /api/confessions/:id/vote` (`routes.ts` lines 888-907):
visitor id comes from the body or the `x-visitor-id` header (JavaScript
`||`, so an empty body value falls through); missing id is a 400;
otherwise remove the vote and answer with the re-read confession spread
plus `userVote: null`. -/
def deleteVoteRoute (db : Db) (confessionId : String)
    (bodyVisitorId headerVisitorId : Option String) : Resp × Db :=
  let visitorId :=
    match truthy bodyVisitorId with
    | some v => some v
    | none => truthy headerVisitorId
  match visitorId with
  | none => (⟨400, [("error", JVal.s ("Visitor ID required"))]⟩, db)
  | some v =>
    let db1 := removeVote db confessionId v
    let updated := getConfession db1 confessionId
    (⟨200, spreadConfession updated ++ [("userVote", JVal.nul)]⟩, db1)

/-! ## Theorems

Helper development first, then one theorem per claim. -/

/-- State of the `submissionRateLimit` map after `k` requests from a
single key, all at the same instant, starting from the empty map. -/
def rateIter (now : Nat) (ip : String) : Nat → RateMap
  | 0 => []
  | k + 1 => (checkRateLimit now (rateIter now ip k) ip).2

lemma rateIter_eq (now : Nat) (ip : String) :
    ∀ k, 1 ≤ k → k ≤ 10 → rateIter now ip k = [(ip, ⟨k, now + 60 * 60 * 1000⟩)] := by
  intro k
  induction k with
  | zero => intro h; omega
  | succ k ih =>
    intro _ hle
    rcases Nat.eq_zero_or_pos k with hk | hk
    · subst hk
      simp [rateIter, checkRateLimit, rateGet, rateSet]
    · have hk10 : k ≤ 10 := by omega
      have := ih hk hk10
      have hklt : k < 10 := by omega
      simp only [rateIter, this]
      simp [checkRateLimit, rateGet, rateSet, MAX_SUBMISSIONS_PER_HOUR,
        Nat.not_lt.mpr (Nat.le_add_right now (60 * 60 * 1000)), Nat.not_le.mpr hklt]

/-- C4: rate limiter semantics.  A fresh key (or an elapsed window, even
an exhausted one) gets a replaced record with count 1 and a reset time
one hour out and is allowed; an in-window request below the maximum of
10 increments the count and is allowed; at or above 10 it is rejected;
starting from an empty map exactly 10 same-instant requests are allowed
and the 11th is rejected, which the submit route turns into a 429 with
retryAfter 3600. -/
theorem C4_rate_limiter (now : Nat) (ip : String) (m : RateMap) :
    (rateGet m ip = none →
      checkRateLimit now m ip = (true, rateSet m ip ⟨1, now + 60 * 60 * 1000⟩)) ∧
    (∀ r, rateGet m ip = some r → r.resetAt < now →
      checkRateLimit now m ip = (true, rateSet m ip ⟨1, now + 60 * 60 * 1000⟩)) ∧
    (∀ r, rateGet m ip = some r → ¬ r.resetAt < now → r.count < 10 →
      checkRateLimit now m ip = (true, rateSet m ip ⟨r.count + 1, r.resetAt⟩)) ∧
    (∀ r, rateGet m ip = some r → ¬ r.resetAt < now → 10 ≤ r.count →
      checkRateLimit now m ip = (false, m)) ∧
    (∀ k, k < 10 → (checkRateLimit now (rateIter now ip k) ip).1 = true) ∧
    ((checkRateLimit now (rateIter now ip 10) ip).1 = false) ∧
    (∀ env req st, (checkRateLimit now (cleanupRateLimits now st.rateMap) ip).1 = false →
      (relayerSubmit env now ip req st).resp =
        ⟨429, [("error", JVal.s ("Rate limit exceeded. Please try again later.")),
               ("retryAfter", JVal.n 3600)]⟩) := by
  refine ⟨?_, ?_, ?_, ?_, ?_, ?_, ?_⟩
  · intro h; simp [checkRateLimit, h]
  · intro r h hlt; simp [checkRateLimit, h, hlt]
  · intro r h hge hcnt
    simp [checkRateLimit, h, hge, MAX_SUBMISSIONS_PER_HOUR, Nat.not_le.mpr hcnt]
  · intro r h hge hcnt
    simp [checkRateLimit, h, hge, MAX_SUBMISSIONS_PER_HOUR, hcnt]
  · intro k hk
    rcases Nat.eq_zero_or_pos k with hk0 | hk0
    · subst hk0; simp [rateIter, checkRateLimit, rateGet]
    · rw [rateIter_eq now ip k hk0 (by omega)]
      simp [checkRateLimit, rateGet, MAX_SUBMISSIONS_PER_HOUR,
        Nat.not_lt.mpr (Nat.le_add_right now (60 * 60 * 1000)), Nat.not_le.mpr hk]
  · rw [rateIter_eq now ip 10 (by omega) (by omega)]
    simp [checkRateLimit, rateGet, MAX_SUBMISSIONS_PER_HOUR,
      Nat.not_lt.mpr (Nat.le_add_right now (60 * 60 * 1000))]
  · intro env req st h
    simp [relayerSubmit, h]

/-- Witness for C4 at concrete inputs: the first request from a fresh
key is allowed and recorded with count 1. -/
theorem C4_rate_limiter_witness :
    checkRateLimit 5 [] "203.0.113.7" =
      (true, rateSet [] "203.0.113.7" ⟨1, 5 + 60 * 60 * 1000⟩) :=
  (C4_rate_limiter 5 "203.0.113.7" []).1 rfl

/-- Reduction of the submit handler once every gate before the
payment-amount check has passed: rate limit allowed, schema valid,
relayer and contract configured, hash unused, payment found and
confirmed, destination equal to the relayer address. -/
lemma relayerSubmit_reaches_payment
    (env : ChainEnv) (now : Nat) (ip : String) (req : SubmitReq) (st : ServerState)
    (addr : String) (ptx : PaymentTx)
    (hrl : (checkRateLimit now (cleanupRateLimits now st.rateMap) ip).1 = true)
    (hschema : relayerSubmitSchema req = true)
    (haddr : env.relayerAddress = some addr)
    (hcfg : env.contractConfigured = true)
    (hused : st.used.contains (jsToLower req.paymentTxHash) = false)
    (hpay : env.paymentLookup = some (ptx, some ReceiptStatus.success))
    (hdest : ptx.toAddr.map jsToLower = some (jsToLower addr)) :
    relayerSubmit env now ip req st =
      (let st1 : ServerState :=
        { st with rateMap := (checkRateLimit now (cleanupRateLimits now st.rateMap) ip).2 }
       let feeWei := env.feeRead.getD 330000000000000
       if ptx.value < feeWei * 90 / 100 then
         ⟨⟨400, [("error", JVal.s ("Insufficient payment amount")),
                 ("required", JVal.s (toString feeWei)),
                 ("received", JVal.s (toString ptx.value))]⟩, st1, false⟩
       else
         let st2 : ServerState := { st1 with used := (jsToLower req.paymentTxHash) :: st1.used }
         match env.balanceRead with
         | Except.error e => submitCatch e st2 false
         | Except.ok balance =>
           if balance < feeWei + 100000000000000 then
             let st3 : ServerState :=
               { st2 with used := st2.used.erase (jsToLower req.paymentTxHash) }
             ⟨⟨503, [("error", JVal.s ("Relayer wallet needs more funding. Please try again later.")),
                     ("relayerAddress", JVal.s addr)]⟩, st3, false⟩
           else
             match env.sendTx with
             | Except.error e => submitCatch e st2 false
             | Except.ok txHash =>
               match env.confirm with
               | Except.error e => submitCatch e st2 true
               | Except.ok ReceiptStatus.reverted => submitCatch ("Transaction reverted") st2 true
               | Except.ok ReceiptStatus.success =>
                 match env.dbFail with
                 | some e => submitCatch e st2 true
                 | none =>
                   let confession := relayerConfessionRow env req txHash
                   ⟨⟨200, [("success", JVal.b true),
                           ("confession", JVal.conf confession),
                           ("txHash", JVal.s txHash),
                           ("message", JVal.s ("Confession anchored anonymously"))]⟩,
                     { st2 with db := { st2.db with
                       confessions := st2.db.confessions ++ [confession] } }, true⟩) := by
  unfold relayerSubmit
  simp only [hrl, hschema, haddr, hcfg, hused, hpay, hdest]
  simp

/-- C5: payment amount tolerance.  Once the submission reaches the
amount check, the payment is rejected -- with a 400 carrying the
required fee and the received value -- exactly when its value is below
`feeWei * 90 / 100` in truncating integer arithmetic; at or above that
bound no later outcome of the request is a 400. -/
theorem C5_payment_tolerance
    (env : ChainEnv) (now : Nat) (ip : String) (req : SubmitReq) (st : ServerState)
    (addr : String) (ptx : PaymentTx)
    (hrl : (checkRateLimit now (cleanupRateLimits now st.rateMap) ip).1 = true)
    (hschema : relayerSubmitSchema req = true)
    (haddr : env.relayerAddress = some addr)
    (hcfg : env.contractConfigured = true)
    (hused : st.used.contains (jsToLower req.paymentTxHash) = false)
    (hpay : env.paymentLookup = some (ptx, some ReceiptStatus.success))
    (hdest : ptx.toAddr.map jsToLower = some (jsToLower addr)) :
    (ptx.value < (env.feeRead.getD 330000000000000) * 90 / 100 →
      (relayerSubmit env now ip req st).resp =
        ⟨400, [("error", JVal.s ("Insufficient payment amount")),
               ("required", JVal.s (toString (env.feeRead.getD 330000000000000))),
               ("received", JVal.s (toString ptx.value))]⟩) ∧
    (¬ ptx.value < (env.feeRead.getD 330000000000000) * 90 / 100 →
      (relayerSubmit env now ip req st).resp.status ≠ 400) := by
  have hred := relayerSubmit_reaches_payment env now ip req st addr ptx
    hrl hschema haddr hcfg hused hpay hdest
  constructor
  · intro h
    rw [hred]
    simp [h]
  · intro h
    rw [hred]
    simp only [if_neg h]
    rcases env.balanceRead with e | bal
    · simp only [submitCatch]
      split <;> simp
    · simp only []
      split
      · simp
      · rcases env.sendTx with e | txh
        · simp only [submitCatch]
          split <;> simp
        · rcases env.confirm with e | s
          · simp only [submitCatch]
            split <;> simp
          · cases s
            · rcases env.dbFail with _ | e
              · simp
              · simp only [submitCatch]
                split <;> simp
            · simp only [submitCatch]
              split <;> simp

/-! ### Concrete sample data for witnesses and counterexamples -/

/-- A syntactically valid payment transaction hash. -/
def sampleHash : String :=
  "0xaaaaaaaaaaaaaaaaaaaaaaaaaaaaaaaaaaaaaaaaaaaaaaaaaaaaaaaaaaaaaaaa"

/-- A valid submit request body. -/
def sampleReq : SubmitReq := ⟨"gm", "Wisdom", sampleHash⟩

/-- An oracle under which every stage of the submission succeeds:
fee 1000 wei, payment of 950 wei to the relayer, ample balance. -/
def sampleEnv : ChainEnv :=
  { relayerAddress := some ("0xRelayer")
    contractConfigured := true
    feeRead := some 1000
    paymentLookup := some (⟨some ("0xrelayer"), 950, "0xUser"⟩, some ReceiptStatus.success)
    balanceRead := Except.ok 1000000000000000000
    sendTx := Except.ok ("0xRelayerTx")
    confirm := Except.ok ReceiptStatus.success
    dbFail := none
    freshConfessionId := "c1"
    insertTimestamp := 7 }

/-- The server state at process start: empty maps, empty store. -/
def emptyState : ServerState := ⟨[], [], ⟨[], [], 0⟩⟩

/-- sampleEnv with a payment of only 10 wei (below 90% of the fee). -/
def lowPayEnv : ChainEnv :=
  { sampleEnv with
    paymentLookup := some (⟨some ("0xrelayer"), 10, "0xUser"⟩, some ReceiptStatus.success) }

/-- sampleEnv with a relayer balance of 5 wei (below fee + gas buffer). -/
def poorEnv : ChainEnv :=
  { sampleEnv with balanceRead := Except.ok 5 }

/-- Witness for C5: a 10-wei payment against a 1000-wei fee is rejected
with the exact required/received payload. -/
theorem C5_payment_tolerance_witness :
    (relayerSubmit lowPayEnv 0 "203.0.113.7" sampleReq emptyState).resp =
      ⟨400, [("error", JVal.s ("Insufficient payment amount")),
             ("required", JVal.s ("1000")),
             ("received", JVal.s ("10"))]⟩ :=
  (C5_payment_tolerance lowPayEnv 0 "203.0.113.7" sampleReq emptyState
    "0xRelayer" ⟨some ("0xrelayer"), 10, "0xUser"⟩
    rfl rfl rfl rfl rfl rfl rfl).1 (by decide)

/-- C2: success postcondition of the submit orchestrator.  With valid
input, an unused verified payment, a funded relayer, a broadcast that
confirms without revert, and a successful insert, the response is 200
with success true, the created confession, and the relayer's own
transaction hash; the persisted row has isAnchored true and txHash equal
to that relayer hash -- never the user-supplied payment hash. -/
theorem C2_success_postcondition
    (env : ChainEnv) (now : Nat) (ip : String) (req : SubmitReq) (st : ServerState)
    (addr : String) (ptx : PaymentTx) (bal : Nat) (txh : String)
    (hrl : (checkRateLimit now (cleanupRateLimits now st.rateMap) ip).1 = true)
    (hschema : relayerSubmitSchema req = true)
    (haddr : env.relayerAddress = some addr)
    (hcfg : env.contractConfigured = true)
    (hused : st.used.contains (jsToLower req.paymentTxHash) = false)
    (hpay : env.paymentLookup = some (ptx, some ReceiptStatus.success))
    (hdest : ptx.toAddr.map jsToLower = some (jsToLower addr))
    (hval : ¬ ptx.value < (env.feeRead.getD 330000000000000) * 90 / 100)
    (hbal : env.balanceRead = Except.ok bal)
    (hfund : ¬ bal < (env.feeRead.getD 330000000000000) + 100000000000000)
    (hsend : env.sendTx = Except.ok txh)
    (hconf : env.confirm = Except.ok ReceiptStatus.success)
    (hdb : env.dbFail = none) :
    (relayerSubmit env now ip req st).resp =
      ⟨200, [("success", JVal.b true),
             ("confession", JVal.conf (relayerConfessionRow env req txh)),
             ("txHash", JVal.s txh),
             ("message", JVal.s ("Confession anchored anonymously"))]⟩ ∧
    (relayerSubmit env now ip req st).state.db.confessions =
      st.db.confessions ++ [relayerConfessionRow env req txh] ∧
    (relayerConfessionRow env req txh).isAnchored = true ∧
    (relayerConfessionRow env req txh).txHash = some txh ∧
    (txh ≠ req.paymentTxHash →
      (relayerConfessionRow env req txh).txHash ≠ some req.paymentTxHash) := by
  have hred := relayerSubmit_reaches_payment env now ip req st addr ptx
    hrl hschema haddr hcfg hused hpay hdest
  rw [hred]
  simp only [if_neg hval, hbal, if_neg hfund, hsend, hconf, hdb]
  refine ⟨trivial, trivial, rfl, rfl, ?_⟩
  intro hne hcontra
  exact hne (Option.some.inj hcontra)

/-- Witness for C2 at the sample configuration: a 950-wei payment
against a 1000-wei fee succeeds and the persisted/returned hash is the
relayer's, not the payment hash. -/
theorem C2_success_postcondition_witness :
    (relayerSubmit sampleEnv 0 "203.0.113.7" sampleReq emptyState).resp =
      ⟨200, [("success", JVal.b true),
             ("confession", JVal.conf (relayerConfessionRow sampleEnv sampleReq ("0xRelayerTx"))),
             ("txHash", JVal.s ("0xRelayerTx")),
             ("message", JVal.s ("Confession anchored anonymously"))]⟩ ∧
    (relayerConfessionRow sampleEnv sampleReq ("0xRelayerTx")).txHash ≠
      some sampleReq.paymentTxHash :=
  ⟨(C2_success_postcondition sampleEnv 0 "203.0.113.7" sampleReq emptyState ("0xRelayer")
      ⟨some ("0xrelayer"), 950, "0xUser"⟩ 1000000000000000000 "0xRelayerTx"
      rfl rfl rfl rfl rfl rfl rfl (by decide) rfl (by decide) rfl rfl rfl).1,
   (C2_success_postcondition sampleEnv 0 "203.0.113.7" sampleReq emptyState ("0xRelayer")
      ⟨some ("0xrelayer"), 950, "0xUser"⟩ 1000000000000000000 "0xRelayerTx"
      rfl rfl rfl rfl rfl rfl rfl (by decide) rfl (by decide) rfl rfl rfl).2.2.2.2
     (by decide)⟩

/-- Counterexample for C3 as stated: with a verified 950-wei payment and
a relayer balance of 5 wei the response is 503 and the hash is rolled
back, but its body carries only `error` and `relayerAddress` -- there
are no required/available amount fields. -/
theorem C3_relayer_underfunded_counterexample :
    (relayerSubmit poorEnv 0 "203.0.113.7" sampleReq emptyState).resp.status = 503 ∧
    (relayerSubmit poorEnv 0 "203.0.113.7" sampleReq emptyState).resp.keys =
      ["error", "relayerAddress"] ∧
    (relayerSubmit poorEnv 0 "203.0.113.7" sampleReq emptyState).resp.get ("required") = none ∧
    (relayerSubmit poorEnv 0 "203.0.113.7" sampleReq emptyState).resp.get ("available") = none ∧
    (relayerSubmit poorEnv 0 "203.0.113.7" sampleReq emptyState).state.used = [] := by
  decide

/-- C3 amended: when the payment verifies but the relayer balance is
below fee + gas buffer, the payment hash is rolled back out of the used
set (the state's used set is exactly what it was, so the hash stays
submittable) and the response is a 503 whose body carries the error
message and the relayer address -- and nothing else. -/
theorem C3_relayer_underfunded_amended
    (env : ChainEnv) (now : Nat) (ip : String) (req : SubmitReq) (st : ServerState)
    (addr : String) (ptx : PaymentTx) (bal : Nat)
    (hrl : (checkRateLimit now (cleanupRateLimits now st.rateMap) ip).1 = true)
    (hschema : relayerSubmitSchema req = true)
    (haddr : env.relayerAddress = some addr)
    (hcfg : env.contractConfigured = true)
    (hused : st.used.contains (jsToLower req.paymentTxHash) = false)
    (hpay : env.paymentLookup = some (ptx, some ReceiptStatus.success))
    (hdest : ptx.toAddr.map jsToLower = some (jsToLower addr))
    (hval : ¬ ptx.value < (env.feeRead.getD 330000000000000) * 90 / 100)
    (hbal : env.balanceRead = Except.ok bal)
    (hpoor : bal < (env.feeRead.getD 330000000000000) + 100000000000000) :
    (relayerSubmit env now ip req st).resp =
      ⟨503, [("error", JVal.s ("Relayer wallet needs more funding. Please try again later.")),
             ("relayerAddress", JVal.s addr)]⟩ ∧
    (relayerSubmit env now ip req st).state.used = st.used ∧
    (relayerSubmit env now ip req st).state.used.contains (jsToLower req.paymentTxHash) = false := by
  have hred := relayerSubmit_reaches_payment env now ip req st addr ptx
    hrl hschema haddr hcfg hused hpay hdest
  rw [hred]
  simp only [if_neg hval, hbal, if_pos hpoor]
  have hmem : jsToLower req.paymentTxHash ∉ st.used := by simpa using hused
  refine ⟨by trivial, ?_, ?_⟩
  · simp [List.erase_cons_head, hmem]
  · simp [List.erase_cons_head, hmem, hused]

/-- Witness for C3 amended at the sample configuration. -/
theorem C3_relayer_underfunded_amended_witness :
    (relayerSubmit poorEnv 0 "203.0.113.7" sampleReq emptyState).resp =
      ⟨503, [("error", JVal.s ("Relayer wallet needs more funding. Please try again later.")),
             ("relayerAddress", JVal.s ("0xRelayer"))]⟩ :=
  (C3_relayer_underfunded_amended poorEnv 0 "203.0.113.7" sampleReq emptyState
    "0xRelayer" ⟨some ("0xrelayer"), 950, "0xUser"⟩ 5
    rfl rfl rfl rfl rfl rfl rfl (by decide) rfl (by decide)).1

/-- The process state after some submission already consumed the sample
payment hash. -/
def usedState : ServerState := ⟨[], [sampleHash], ⟨[], [], 0⟩⟩

/-- Counterexample for C8 as stated: resubmitting an already-consumed
payment hash yields HTTP 400, not a 409-class conflict (409 is reserved
for the duplicate-content already-exists path). -/
theorem C8_duplicate_hash_counterexample :
    (relayerSubmit sampleEnv 0 "203.0.113.7" sampleReq usedState).resp.status = 400 ∧
    (relayerSubmit sampleEnv 0 "203.0.113.7" sampleReq usedState).resp.status ≠ 409 ∧
    (relayerSubmit sampleEnv 0 "203.0.113.7" sampleReq usedState).resp.get ("error") =
      some (JVal.s ("This payment has already been used for a confession")) := by
  decide

/-- C8 amended: a submission whose payment hash is already in the used
set is rejected with a 400 carrying the dedicated already-used error
message, which is distinct from the transaction-not-found message; the
status is not 409. -/
theorem C8_duplicate_hash_amended
    (env : ChainEnv) (now : Nat) (ip : String) (req : SubmitReq) (st : ServerState)
    (addr : String)
    (hrl : (checkRateLimit now (cleanupRateLimits now st.rateMap) ip).1 = true)
    (hschema : relayerSubmitSchema req = true)
    (haddr : env.relayerAddress = some addr)
    (hcfg : env.contractConfigured = true)
    (hused : st.used.contains (jsToLower req.paymentTxHash) = true) :
    (relayerSubmit env now ip req st).resp =
      ⟨400, [("error", JVal.s ("This payment has already been used for a confession"))]⟩ ∧
    (relayerSubmit env now ip req st).resp.status ≠ 409 ∧
    (relayerSubmit env now ip req st).state.used = st.used ∧
    ((JVal.s ("This payment has already been used for a confession")) ≠
      JVal.s ("Payment transaction not found. Please wait for confirmation and try again.")) := by
  unfold relayerSubmit
  simp only [hrl, hschema, haddr, hcfg, hused]
  refine ⟨by simp, by simp, by simp, by simp⟩

/-- Witness for C8 amended: concrete rejection of a reused hash. -/
theorem C8_duplicate_hash_amended_witness :
    (relayerSubmit sampleEnv 0 "203.0.113.7" sampleReq usedState).resp =
      ⟨400, [("error", JVal.s ("This payment has already been used for a confession"))]⟩ :=
  (C8_duplicate_hash_amended sampleEnv 0 "203.0.113.7" sampleReq usedState ("0xRelayer")
    rfl rfl rfl rfl (by decide)).1

/-- State component of the submit catch block: it never touches the
used-hash set. -/
lemma submitCatch_state (e : String) (s : ServerState) (b : Bool) :
    (submitCatch e s b).state = s := by
  unfold submitCatch; split <;> rfl

/-- Broadcast flag of the submit catch block is whatever the failing
stage recorded. -/
lemma submitCatch_broadcast (e : String) (s : ServerState) (b : Bool) :
    (submitCatch e s b).broadcast = b := by
  unfold submitCatch; split <;> rfl

/-- The catch block answers 409 or 500, never 200. -/
lemma submitCatch_status_ne (e : String) (s : ServerState) (b : Bool) :
    (submitCatch e s b).resp.status ≠ 200 := by
  unfold submitCatch; split <;> simp

/-- Once a gated submission is accepted -- it answered 200, or at least
its relayer transaction was broadcast -- the lower-cased payment hash
sits at the head of the used set of the resulting state, whatever
happened afterwards (revert, timeout, database failure). -/
lemma used_after_accept
    (env : ChainEnv) (now : Nat) (ip : String) (req : SubmitReq) (st : ServerState)
    (addr : String) (ptx : PaymentTx)
    (hrl : (checkRateLimit now (cleanupRateLimits now st.rateMap) ip).1 = true)
    (hschema : relayerSubmitSchema req = true)
    (haddr : env.relayerAddress = some addr)
    (hcfg : env.contractConfigured = true)
    (hused : st.used.contains (jsToLower req.paymentTxHash) = false)
    (hpay : env.paymentLookup = some (ptx, some ReceiptStatus.success))
    (hdest : ptx.toAddr.map jsToLower = some (jsToLower addr))
    (hacc : (relayerSubmit env now ip req st).resp.status = 200 ∨
            (relayerSubmit env now ip req st).broadcast = true) :
    (relayerSubmit env now ip req st).state.used = jsToLower req.paymentTxHash :: st.used := by
  have hred := relayerSubmit_reaches_payment env now ip req st addr ptx
    hrl hschema haddr hcfg hused hpay hdest
  dsimp only at hred
  by_cases hval : ptx.value < env.feeRead.getD 330000000000000 * 90 / 100
  · rw [if_pos hval] at hred
    rw [hred] at hacc
    rcases hacc with h | h <;> simp at h
  · rw [if_neg hval] at hred
    rcases hbal : env.balanceRead with e | bal
    · rw [hbal] at hred
      dsimp only at hred
      rw [hred] at hacc
      rcases hacc with h | h
      · exact absurd h (submitCatch_status_ne _ _ _)
      · rw [submitCatch_broadcast] at h
        exact Bool.noConfusion h
    · rw [hbal] at hred
      dsimp only at hred
      by_cases hfund : bal < env.feeRead.getD 330000000000000 + 100000000000000
      · rw [if_pos hfund] at hred
        rw [hred] at hacc
        rcases hacc with h | h <;> simp at h
      · rw [if_neg hfund] at hred
        rcases hsend : env.sendTx with e | txh
        · rw [hsend] at hred
          dsimp only at hred
          rw [hred] at hacc
          rcases hacc with h | h
          · exact absurd h (submitCatch_status_ne _ _ _)
          · rw [submitCatch_broadcast] at h
            exact Bool.noConfusion h
        · rw [hsend] at hred
          dsimp only at hred
          rcases hconf : env.confirm with e | s
          · rw [hconf] at hred
            dsimp only at hred
            rw [hred, submitCatch_state]
          · cases s
            · rcases hdb : env.dbFail with _ | e
              · rw [hconf, hdb] at hred
                dsimp only at hred
                rw [hred]
              · rw [hconf, hdb] at hred
                dsimp only at hred
                rw [hred, submitCatch_state]
            · rw [hconf] at hred
              dsimp only at hred
              rw [hred, submitCatch_state]

/-- A submission whose (lower-cased) payment hash is already in the
used set is turned away at the used-hash gate with the dedicated 400,
leaving the used set unchanged and broadcasting nothing. -/
lemma already_used_rejected
    (env : ChainEnv) (now : Nat) (ip : String) (req : SubmitReq) (st : ServerState)
    (addr : String)
    (hrl : (checkRateLimit now (cleanupRateLimits now st.rateMap) ip).1 = true)
    (hschema : relayerSubmitSchema req = true)
    (haddr : env.relayerAddress = some addr)
    (hcfg : env.contractConfigured = true)
    (hused : st.used.contains (jsToLower req.paymentTxHash) = true) :
    relayerSubmit env now ip req st =
      ⟨⟨400, [("error", JVal.s ("This payment has already been used for a confession"))]⟩,
       { st with rateMap := (checkRateLimit now (cleanupRateLimits now st.rateMap) ip).2 },
       false⟩ := by
  unfold relayerSubmit
  simp only [hrl, hschema, haddr, hcfg, hused]
  simp

/-- C1: at-most-one acceptance per payment hash.  If a gated submission
with hash h was accepted (success response, or at least its relayer
transaction was broadcast -- including every failure after broadcast:
revert, timeout, database error), then any later submission carrying the
same h that reaches the used-hash gate is rejected with the already-used
400, broadcasts nothing, and leaves the used set unchanged, so h stays
consumed. -/
theorem C1_at_most_one_acceptance
    (env1 env2 : ChainEnv) (now1 now2 : Nat) (ip1 ip2 : String)
    (req1 req2 : SubmitReq) (st : ServerState)
    (addr1 addr2 : String) (ptx1 : PaymentTx)
    (hrl1 : (checkRateLimit now1 (cleanupRateLimits now1 st.rateMap) ip1).1 = true)
    (hschema1 : relayerSubmitSchema req1 = true)
    (haddr1 : env1.relayerAddress = some addr1)
    (hcfg1 : env1.contractConfigured = true)
    (hused1 : st.used.contains (jsToLower req1.paymentTxHash) = false)
    (hpay1 : env1.paymentLookup = some (ptx1, some ReceiptStatus.success))
    (hdest1 : ptx1.toAddr.map jsToLower = some (jsToLower addr1))
    (hacc : (relayerSubmit env1 now1 ip1 req1 st).resp.status = 200 ∨
            (relayerSubmit env1 now1 ip1 req1 st).broadcast = true)
    (hsame : req2.paymentTxHash = req1.paymentTxHash)
    (hrl2 : (checkRateLimit now2
      (cleanupRateLimits now2 (relayerSubmit env1 now1 ip1 req1 st).state.rateMap) ip2).1 = true)
    (hschema2 : relayerSubmitSchema req2 = true)
    (haddr2 : env2.relayerAddress = some addr2)
    (hcfg2 : env2.contractConfigured = true) :
    (relayerSubmit env2 now2 ip2 req2 (relayerSubmit env1 now1 ip1 req1 st).state).resp =
      ⟨400, [("error", JVal.s ("This payment has already been used for a confession"))]⟩ ∧
    (relayerSubmit env2 now2 ip2 req2 (relayerSubmit env1 now1 ip1 req1 st).state).broadcast
      = false ∧
    (relayerSubmit env2 now2 ip2 req2 (relayerSubmit env1 now1 ip1 req1 st).state).state.used =
      (relayerSubmit env1 now1 ip1 req1 st).state.used := by
  have husedeq := used_after_accept env1 now1 ip1 req1 st addr1 ptx1
    hrl1 hschema1 haddr1 hcfg1 hused1 hpay1 hdest1 hacc
  have hcontains : (relayerSubmit env1 now1 ip1 req1 st).state.used.contains
      (jsToLower req2.paymentTxHash) = true := by
    rw [hsame, husedeq]
    simp [List.contains_cons]
  have h2 := already_used_rejected env2 now2 ip2 req2
    (relayerSubmit env1 now1 ip1 req1 st).state addr2 hrl2 hschema2 haddr2 hcfg2 hcontains
  rw [h2]
  exact ⟨rfl, rfl, rfl⟩

/-- Witness for C1: a successful sample submission followed by a second
submission reusing the same payment hash, which is rejected as already
used. -/
theorem C1_at_most_one_acceptance_witness :
    (relayerSubmit sampleEnv 3 "198.51.100.2" sampleReq
        (relayerSubmit sampleEnv 0 "203.0.113.7" sampleReq emptyState).state).resp =
      ⟨400, [("error", JVal.s ("This payment has already been used for a confession"))]⟩ :=
  (C1_at_most_one_acceptance sampleEnv sampleEnv 0 3 "203.0.113.7" "198.51.100.2"
    sampleReq sampleReq emptyState ("0xRelayer") "0xRelayer"
    ⟨some ("0xrelayer"), 950, "0xUser"⟩
    rfl rfl rfl rfl (by decide) rfl rfl (Or.inl (by decide)) rfl (by decide)
    rfl rfl rfl).1

/-- C7: nonce expiry dominates signature validity.  When every stored
nonce for the lower-cased wallet address is absent or past expiry, the
admin verify operation answers 401 "Nonce expired or invalid" with no
session issued, for every possible signature verifier -- the verdict
never consults it. -/
theorem C7_nonce_expiry_dominates
    (sigOk : String → String → String → Bool) (ownerAddress : Option String)
    (newToken : String) (now : Nat) (st : AdminState) (req : VerifyReq)
    (wallet sig msg : String)
    (hw : truthy req.walletAddress = some wallet)
    (hs : truthy req.signature = some sig)
    (hm : truthy req.message = some msg)
    (hnonce : ∀ kv ∈ st.nonces, kv.1 = jsToLower wallet → kv.2.expiresAt < now) :
    adminVerify sigOk ownerAddress newToken now st req =
      (⟨401, [("error", JVal.s ("Nonce expired or invalid"))]⟩,
       cleanupExpiredSessions now st) := by
  have hfind : (cleanupExpiredSessions now st).nonces.find?
      (fun kv => kv.1 == jsToLower wallet) = none := by
    apply List.find?_eq_none.mpr
    intro kv hkv
    rw [cleanupExpiredSessions] at hkv
    simp only [List.mem_filter] at hkv
    obtain ⟨hmem, hkeep⟩ := hkv
    intro hbeq
    have hexp := hnonce kv hmem (eq_of_beq hbeq)
    simp at hkeep
    exact absurd hexp (by omega)
  have hn : alistGet (cleanupExpiredSessions now st).nonces (jsToLower wallet) = none := by
    simp [alistGet, hfind]
  unfold adminVerify
  simp only [hw, hs, hm, hn]

/-- Witness for C7: an expired nonce (expiry 10, now 20) is rejected
even though the signature verifier accepts everything. -/
theorem C7_nonce_expiry_dominates_witness :
    adminVerify (fun _ _ _ => true) (some ("0xAdmin")) "tok" 20
      ⟨[], [("0xadmin", ⟨"n0", 10⟩)]⟩
      ⟨some ("0xAdmin"), some ("0xsig"), some ("message n0")⟩ =
      (⟨401, [("error", JVal.s ("Nonce expired or invalid"))]⟩,
       cleanupExpiredSessions 20 ⟨[], [("0xadmin", ⟨"n0", 10⟩)]⟩) :=
  C7_nonce_expiry_dominates (fun _ _ _ => true) (some ("0xAdmin")) "tok" 20
    ⟨[], [("0xadmin", ⟨"n0", 10⟩)]⟩
    ⟨some ("0xAdmin"), some ("0xsig"), some ("message n0")⟩
    "0xAdmin" "0xsig" "message n0" rfl rfl rfl (by decide)

/-- C9: with no authorized owner address configured, the owner check is
skipped, so any wallet with a live nonce and a valid signature over a
message containing it receives a session token bound to its own
lower-cased address. -/
theorem C9_no_owner_configured
    (sigOk : String → String → String → Bool) (newToken : String) (now : Nat)
    (st : AdminState) (req : VerifyReq) (wallet sig msg : String) (nd : NonceData)
    (hw : truthy req.walletAddress = some wallet)
    (hs : truthy req.signature = some sig)
    (hm : truthy req.message = some msg)
    (hnd : alistGet (cleanupExpiredSessions now st).nonces (jsToLower wallet) = some nd)
    (hexp : ¬ nd.expiresAt < now)
    (hincl : strIncludes msg nd.nonce = true)
    (hsig : sigOk wallet msg sig = true) :
    (adminVerify sigOk none newToken now st req).1 =
      ⟨200, [("sessionToken", JVal.s newToken), ("expiresIn", JVal.n 3600)]⟩ ∧
    alistGet (adminVerify sigOk none newToken now st req).2.sessions newToken =
      some ⟨jsToLower wallet, now + 60 * 60 * 1000⟩ := by
  unfold adminVerify
  simp only [hw, hs, hm, hnd, hincl, hsig, if_neg hexp]
  refine ⟨by simp, ?_⟩
  simp [alistGet, alistSet]

/-- Witness for C9: a non-owner wallet is granted a session when no
owner address is configured. -/
theorem C9_no_owner_configured_witness :
    (adminVerify (fun a m s => a == "0xUser" && m == "hello n1" && s == "0xsig")
        none ("tok") 20 ⟨[], [("0xuser", ⟨"n1", 100⟩)]⟩
        ⟨some ("0xUser"), some ("0xsig"), some ("hello n1")⟩).1 =
      ⟨200, [("sessionToken", JVal.s ("tok")), ("expiresIn", JVal.n 3600)]⟩ :=
  (C9_no_owner_configured
    (fun a m s => a == "0xUser" && m == "hello n1" && s == "0xsig") "tok" 20
    ⟨[], [("0xuser", ⟨"n1", 100⟩)]⟩
    ⟨some ("0xUser"), some ("0xsig"), some ("hello n1")⟩
    "0xUser" "0xsig" "hello n1" ⟨"n1", 100⟩
    rfl rfl rfl (by decide) (by decide) (by decide) (by decide)).1

/-- C10: removing a vote for a pair with no existing vote is a no-op on
the store -- no vote row and no counter changes -- and the DELETE route
still answers 200 with the (unchanged) confession spread and
userVote null. -/
theorem C10_remove_nonexistent_vote
    (db : Db) (confessionId : String) (bodyV headerV : Option String)
    (v : String) (c : Confession)
    (hv : (match truthy bodyV with
           | some x => some x
           | none => truthy headerV) = some v)
    (hnone : getVote db confessionId v = none)
    (hc : getConfession db confessionId = some c) :
    deleteVoteRoute db confessionId bodyV headerV =
      (⟨200, spreadConfession (some c) ++ [("userVote", JVal.nul)]⟩, db) := by
  unfold deleteVoteRoute removeVote
  simp only [hv, hnone, hc]

/-- Witness for C10: deleting a vote that does not exist answers with
the stored confession, userVote null, and leaves the store unchanged. -/
theorem C10_remove_nonexistent_vote_witness :
    deleteVoteRoute
        ⟨[⟨"c1", "t", "t", "Wisdom", 0, none, false, false, 0, 0, 50, none⟩], [], 0⟩
        "c1" none (some ("v1")) =
      (⟨200, spreadConfession
          (some ⟨"c1", "t", "t", "Wisdom", 0, none, false, false, 0, 0, 50, none⟩) ++
          [("userVote", JVal.nul)]⟩,
       ⟨[⟨"c1", "t", "t", "Wisdom", 0, none, false, false, 0, 0, 50, none⟩], [], 0⟩) :=
  C10_remove_nonexistent_vote
    ⟨[⟨"c1", "t", "t", "Wisdom", 0, none, false, false, 0, 0, 50, none⟩], [], 0⟩
    "c1" none (some ("v1")) "v1"
    ⟨"c1", "t", "t", "Wisdom", 0, none, false, false, 0, 0, 50, none⟩
    rfl rfl rfl

/-! ### List helpers for the vote-store proofs -/

/-- A successful `find?` splits its list into a failing head part, the
found element, and a tail. -/
lemma find?_decomp {α : Type} (p : α → Bool) :
    ∀ (l : List α) (a : α), l.find? p = some a →
      ∃ l1 l2, l = l1 ++ a :: l2 ∧ (∀ x ∈ l1, p x = false) ∧ p a = true := by
  intro l
  induction l with
  | nil => intro a h; simp at h
  | cons b bs ih =>
    intro a h
    cases hpb : p b with
    | true =>
      rw [List.find?_cons_of_pos _ hpb] at h
      obtain rfl : b = a := by injection h
      exact ⟨[], bs, rfl, by simp, hpb⟩
    | false =>
      rw [List.find?_cons_of_neg _ (by simp [hpb])] at h
      obtain ⟨l1, l2, hl, hfail, hpa⟩ := ih a h
      exact ⟨b :: l1, l2, by simp [hl], by
        intro x hx
        rcases List.mem_cons.mp hx with rfl | hx
        · exact hpb
        · exact hfail x hx, hpa⟩

/-- Mapping the single-row vote-type update over rows whose ids all
differ from the target id changes nothing. -/
lemma map_update_of_ne_id (t : VoteType) (i : Nat) :
    ∀ (l : List Vote), (∀ w ∈ l, w.id ≠ i) →
      l.map (fun w => if w.id == i then { w with voteType := t } else w) = l := by
  intro l h
  induction l with
  | nil => rfl
  | cons b bs ih =>
    have hb : (b.id == i) = false :=
      beq_eq_false_iff_ne.mpr (h b (List.mem_cons_self b bs))
    have hbs := ih (fun w hw => h w (List.mem_cons_of_mem _ hw))
    rw [List.map_cons, hb, hbs, if_neg Bool.false_ne_true]

/-- Filtering out a row id foreign to the whole list changes nothing. -/
lemma filter_ne_of_ne_id (i : Nat) :
    ∀ (l : List Vote), (∀ w ∈ l, w.id ≠ i) →
      l.filter (fun w => w.id != i) = l := by
  intro l h
  induction l with
  | nil => rfl
  | cons b bs ih =>
    have hb : (b.id != i) = true :=
      bne_iff_ne.mpr (h b (List.mem_cons_self b bs))
    have hbs := ih (fun w hw => h w (List.mem_cons_of_mem _ hw))
    rw [List.filter_cons, hb, hbs, if_pos rfl]

/-- Vote count of a raw row list (so counts can be tracked across the
list surgery done by the vote operations). -/
def cntV (l : List Vote) (x : String) (t : VoteType) : Nat :=
  (l.filter (fun w => w.confessionId == x && w.voteType == t)).length

lemma voteCount_eq_cntV (db : Db) (x : String) (t : VoteType) :
    voteCount db x t = cntV db.votes x t := rfl

lemma cntV_append (l1 l2 : List Vote) (x : String) (t : VoteType) :
    cntV (l1 ++ l2) x t = cntV l1 x t + cntV l2 x t := by
  simp [cntV, List.filter_append]

lemma cntV_cons (w : Vote) (l : List Vote) (x : String) (t : VoteType) :
    cntV (w :: l) x t =
      cntV l x t + (if (w.confessionId == x && w.voteType == t) = true then 1 else 0) := by
  simp only [cntV, List.filter_cons]
  split
  · simp [Nat.add_comm]
  · simp

lemma cntV_singleton (w : Vote) (x : String) (t : VoteType) :
    cntV [w] x t = if (w.confessionId == x && w.voteType == t) = true then 1 else 0 := by
  by_cases h : (w.confessionId == x && w.voteType == t) = true
  · rw [if_pos h]
    simp [cntV, List.filter, h]
  · have hb : (w.confessionId == x && w.voteType == t) = false := by
      cases hx : (w.confessionId == x && w.voteType == t) with
      | true => exact absurd hx h
      | false => rfl
    rw [if_neg h]
    simp [cntV, List.filter, hb]

/-- After `bumpCounters cid dl dd`, counters stay synchronized with any
new row list whose counts moved by exactly (dl, dd) at cid and are
untouched elsewhere. -/
lemma counters_after_bump
    (confs : List Confession) (oldVotes newVotes : List Vote) (cid : String) (dl dd : Int)
    (hcnt : ∀ cf ∈ confs, cf.likes = (cntV oldVotes cf.id VoteType.like : Int) ∧
            cf.dislikes = (cntV oldVotes cf.id VoteType.dislike : Int))
    (hat : (cntV newVotes cid VoteType.like : Int) = cntV oldVotes cid VoteType.like + dl)
    (hatd : (cntV newVotes cid VoteType.dislike : Int) = cntV oldVotes cid VoteType.dislike + dd)
    (hoff : ∀ x, x ≠ cid → cntV newVotes x VoteType.like = cntV oldVotes x VoteType.like ∧
            cntV newVotes x VoteType.dislike = cntV oldVotes x VoteType.dislike) :
    ∀ cf ∈ confs.map (fun cf =>
        if cf.id == cid then
          { cf with likes := cf.likes + dl, dislikes := cf.dislikes + dd }
        else cf),
      cf.likes = (cntV newVotes cf.id VoteType.like : Int) ∧
      cf.dislikes = (cntV newVotes cf.id VoteType.dislike : Int) := by
  intro cf' hcf'
  obtain ⟨cf, hcf, rfl⟩ := List.mem_map.mp hcf'
  obtain ⟨hcl, hcd⟩ := hcnt cf hcf
  by_cases hid : (cf.id == cid) = true
  · have hceq : cf.id = cid := eq_of_beq hid
    rw [if_pos hid]
    rw [hceq] at hcl hcd
    constructor
    · show cf.likes + dl = _
      dsimp only
      rw [hceq, hat, hcl]
    · show cf.dislikes + dd = _
      dsimp only
      rw [hceq, hatd, hcd]
  · rw [if_neg hid]
    have hne : cf.id ≠ cid := fun hcontra => hid (beq_iff_eq.mpr hcontra)
    obtain ⟨hl2, hd2⟩ := hoff cf.id hne
    exact ⟨by rw [hl2]; exact hcl, by rw [hd2]; exact hcd⟩

/-- Replacing the middle element of a list preserves `Pairwise R` when
the replacement relates on both sides whenever the original did. -/
lemma pairwise_middle_replace {R : Vote → Vote → Prop} (l1 l2 : List Vote) (a b : Vote)
    (hR1 : ∀ x, R x a → R x b) (hR2 : ∀ x, R a x → R b x)
    (h : (l1 ++ a :: l2).Pairwise R) : (l1 ++ b :: l2).Pairwise R := by
  rw [List.pairwise_append] at h ⊢
  obtain ⟨h1, h2, h12⟩ := h
  rw [List.pairwise_cons] at h2 ⊢
  refine ⟨h1, ⟨fun y hy => hR2 y (h2.1 y hy), h2.2⟩, ?_⟩
  intro x hx y hy
  rcases List.mem_cons.mp hy with rfl | hy
  · exact hR1 x (h12 x hx a (List.mem_cons_self _ _))
  · exact h12 x hx y (List.mem_cons_of_mem _ hy)

/-- `find?` skips a failing head segment. -/
lemma find?_append_of_none {α : Type} (p : α → Bool) (l1 l2 : List α)
    (h : ∀ x ∈ l1, p x = false) :
    (l1 ++ l2).find? p = l2.find? p := by
  induction l1 with
  | nil => rfl
  | cons b bs ih =>
    rw [List.cons_append, List.find?_cons_of_neg _ (by simp [h b (List.mem_cons_self b bs)])]
    exact ih (fun x hx => h x (List.mem_cons_of_mem _ hx))

/-- Invariant preservation for `createOrUpdateVote` when no vote exists
yet: a fresh row is inserted and the matching counter bumped. -/
lemma createOrUpdateVote_inv_none
    (db : Db) (c v : String) (t : VoteType)
    (h : VoteInvariant db) (hfind : getVote db c v = none) :
    VoteInvariant (createOrUpdateVote db c v t) := by
  obtain ⟨hids, hfresh, hpairs, hcnt⟩ := h
  have hp : ∀ w ∈ db.votes, (w.confessionId == c && w.visitorId == v) = false := by
    intro w hw
    have hnone : db.votes.find? (fun w => w.confessionId == c && w.visitorId == v) = none := hfind
    have hnp := List.find?_eq_none.mp hnone w hw
    cases hx : (w.confessionId == c && w.visitorId == v) with
    | true => exact absurd hx hnp
    | false => rfl
  have hids' : (db.votes ++ [(⟨db.nextVoteId, c, v, t⟩ : Vote)]).Pairwise
      (fun a b => a.id ≠ b.id) := by
    rw [List.pairwise_append]
    refine ⟨hids, List.pairwise_singleton _ _, ?_⟩
    intro a ha b hb
    rw [List.mem_singleton] at hb
    subst hb
    exact Nat.ne_of_lt (hfresh a ha)
  have hfresh' : ∀ w ∈ db.votes ++ [(⟨db.nextVoteId, c, v, t⟩ : Vote)],
      w.id < db.nextVoteId + 1 := by
    intro w hw
    rcases List.mem_append.mp hw with hw | hw
    · exact Nat.lt_succ_of_lt (hfresh w hw)
    · rw [List.mem_singleton] at hw
      subst hw
      exact Nat.lt_succ_self _
  have hpairs' : (db.votes ++ [(⟨db.nextVoteId, c, v, t⟩ : Vote)]).Pairwise
      (fun a b => a.confessionId ≠ b.confessionId ∨ a.visitorId ≠ b.visitorId) := by
    rw [List.pairwise_append]
    refine ⟨hpairs, List.pairwise_singleton _ _, ?_⟩
    intro a ha b hb
    rw [List.mem_singleton] at hb
    subst hb
    by_cases hc1 : a.confessionId = c
    · right
      intro hv1
      have hcontra : (a.confessionId == c && a.visitorId == v) = true := by
        rw [hc1, hv1]
        simp
      rw [hp a ha] at hcontra
      exact Bool.noConfusion hcontra
    · left
      exact hc1
  have hoff : ∀ x, x ≠ c → ∀ t',
      cntV (db.votes ++ [(⟨db.nextVoteId, c, v, t⟩ : Vote)]) x t' = cntV db.votes x t' := by
    intro x hx t'
    rw [cntV_append, cntV_singleton]
    have hb : ((c : String) == x) = false := beq_eq_false_iff_ne.mpr (fun hcc => hx hcc.symm)
    dsimp only
    rw [hb]
    simp
  have hatsame : ∀ t', (cntV (db.votes ++ [(⟨db.nextVoteId, c, v, t⟩ : Vote)]) c t' : Int) =
      cntV db.votes c t' + (if (t == t') = true then 1 else 0) := by
    intro t'
    rw [cntV_append, cntV_singleton]
    dsimp only
    rw [beq_self_eq_true]
    by_cases htt : (t == t') = true
    · rw [if_pos htt]
      simp [htt]
    · have hbf : (t == t') = false := by
        cases hx : (t == t') with
        | true => exact absurd hx htt
        | false => rfl
      rw [if_neg htt]
      simp [hbf]
  unfold createOrUpdateVote
  rw [hfind]
  dsimp only
  by_cases ht : (t == VoteType.like) = true
  · have hteq : t = VoteType.like := eq_of_beq ht
    rw [if_pos ht]
    refine ⟨hids', hfresh', hpairs', ?_⟩
    refine counters_after_bump db.confessions db.votes
      (db.votes ++ [(⟨db.nextVoteId, c, v, t⟩ : Vote)]) c 1 0
      (fun cf hcf => hcnt cf hcf) ?_ ?_ ?_
    · rw [hatsame VoteType.like, hteq]
      simp
    · rw [hatsame VoteType.dislike, hteq]
      simp
    · intro x hx
      exact ⟨hoff x hx VoteType.like, hoff x hx VoteType.dislike⟩
  · have hbf : (t == VoteType.like) = false := by
      cases hx : (t == VoteType.like) with
      | true => exact absurd hx ht
      | false => rfl
    have hteq : t = VoteType.dislike := by
      cases t with
      | like => simp at hbf
      | dislike => rfl
    rw [if_neg ht]
    refine ⟨hids', hfresh', hpairs', ?_⟩
    refine counters_after_bump db.confessions db.votes
      (db.votes ++ [(⟨db.nextVoteId, c, v, t⟩ : Vote)]) c 0 1
      (fun cf hcf => hcnt cf hcf) ?_ ?_ ?_
    · rw [hatsame VoteType.like, hteq]
      simp
    · rw [hatsame VoteType.dislike, hteq]
      simp
    · intro x hx
      exact ⟨hoff x hx VoteType.like, hoff x hx VoteType.dislike⟩

/-- Invariant preservation for `createOrUpdateVote` when a vote already
exists: repeating the type is a no-op, switching updates the row in
place and moves one count. -/
lemma createOrUpdateVote_inv_some
    (db : Db) (c v : String) (t : VoteType) (ex : Vote)
    (h : VoteInvariant db) (hfind : getVote db c v = some ex) :
    VoteInvariant (createOrUpdateVote db c v t) := by
  obtain ⟨hids, hfresh, hpairs, hcnt⟩ := h
  unfold createOrUpdateVote
  rw [hfind]
  dsimp only
  by_cases hsame : (ex.voteType == t) = true
  · rw [if_pos hsame]
    exact ⟨hids, hfresh, hpairs, hcnt⟩
  · rw [if_neg hsame]
    obtain ⟨l1, l2, hL, hfail, hpex⟩ := find?_decomp _ db.votes ex hfind
    obtain ⟨hb1, hb2⟩ := Bool.and_eq_true_iff.mp hpex
    have hexc : ex.confessionId = c := eq_of_beq hb1
    have hexv : ex.visitorId = v := eq_of_beq hb2
    rw [hL] at hids hfresh hpairs
    have hl1id : ∀ a ∈ l1, a.id ≠ ex.id := by
      have hA := List.pairwise_append.mp hids
      intro a ha
      exact hA.2.2 a ha ex (List.mem_cons_self _ _)
    have hl2id : ∀ b ∈ l2, b.id ≠ ex.id := by
      have hA := List.pairwise_append.mp hids
      have hB := List.pairwise_cons.mp hA.2.1
      intro b hb
      exact (hB.1 b hb).symm
    have hmap : db.votes.map
        (fun w => if (w.id == ex.id) = true then { w with voteType := t } else w)
        = l1 ++ ({ ex with voteType := t } : Vote) :: l2 := by
      rw [hL, List.map_append, List.map_cons,
        map_update_of_ne_id t ex.id l1 hl1id, map_update_of_ne_id t ex.id l2 hl2id,
        beq_self_eq_true, if_pos rfl]
    have hids2 : (l1 ++ ({ ex with voteType := t } : Vote) :: l2).Pairwise
        (fun a b => a.id ≠ b.id) :=
      pairwise_middle_replace l1 l2 ex _ (fun _ hx => hx) (fun _ hx => hx) hids
    have hpairs2 : (l1 ++ ({ ex with voteType := t } : Vote) :: l2).Pairwise
        (fun a b => a.confessionId ≠ b.confessionId ∨ a.visitorId ≠ b.visitorId) :=
      pairwise_middle_replace l1 l2 ex _ (fun _ hx => hx) (fun _ hx => hx) hpairs
    have hfr : ∀ w ∈ l1 ++ ({ ex with voteType := t } : Vote) :: l2,
        w.id < db.nextVoteId := by
      intro w hw
      rcases List.mem_append.mp hw with hw | hw
      · exact hfresh w (List.mem_append.mpr (Or.inl hw))
      · rcases List.mem_cons.mp hw with rfl | hw
        · exact hfresh ex (List.mem_append.mpr (Or.inr (List.mem_cons_self _ _)))
        · exact hfresh w (List.mem_append.mpr (Or.inr (List.mem_cons_of_mem _ hw)))
    have hcntnew : ∀ x t', cntV (l1 ++ ({ ex with voteType := t } : Vote) :: l2) x t'
        = cntV l1 x t' + cntV l2 x t'
          + (if (ex.confessionId == x && t == t') = true then 1 else 0) := by
      intro x t'
      rw [cntV_append, cntV_cons]
      split <;> omega
    have hcntold : ∀ x t', cntV db.votes x t'
        = cntV l1 x t' + cntV l2 x t'
          + (if (ex.confessionId == x && ex.voteType == t') = true then 1 else 0) := by
      intro x t'
      rw [hL, cntV_append, cntV_cons]
      split <;> omega
    have hbc : (ex.confessionId == c) = true := hb1
    have hoff : ∀ x, x ≠ c → ∀ t',
        cntV (l1 ++ ({ ex with voteType := t } : Vote) :: l2) x t' = cntV db.votes x t' := by
      intro x hx t'
      have hbx : (ex.confessionId == x) = false := by
        rw [hexc]
        exact beq_eq_false_iff_ne.mpr (fun hcc => hx hcc.symm)
      rw [hcntnew, hcntold, hbx]
      simp
    have hextype : ex.voteType = (match t with
      | VoteType.like => VoteType.dislike
      | VoteType.dislike => VoteType.like) := by
      cases t <;> cases hex : ex.voteType <;> simp_all
    cases t with
    | like =>
      rw [hmap]
      refine ⟨hids2, hfr, hpairs2, ?_⟩
      refine counters_after_bump db.confessions db.votes
        (l1 ++ ({ ex with voteType := VoteType.like } : Vote) :: l2) c 1 (-1)
        (fun cf hcf => hcnt cf hcf) ?_ ?_ ?_
      · rw [hcntnew, hcntold, hbc, hextype]
        simp
      · rw [hcntnew, hcntold, hbc, hextype]
        simp
      · intro x hx
        exact ⟨hoff x hx VoteType.like, hoff x hx VoteType.dislike⟩
    | dislike =>
      rw [hmap]
      refine ⟨hids2, hfr, hpairs2, ?_⟩
      refine counters_after_bump db.confessions db.votes
        (l1 ++ ({ ex with voteType := VoteType.dislike } : Vote) :: l2) c (-1) 1
        (fun cf hcf => hcnt cf hcf) ?_ ?_ ?_
      · rw [hcntnew, hcntold, hbc, hextype]
        simp
      · rw [hcntnew, hcntold, hbc, hextype]
        simp
      · intro x hx
        exact ⟨hoff x hx VoteType.like, hoff x hx VoteType.dislike⟩

/-- Invariant preservation for `removeVote`: a no-op without an existing
row, otherwise the row is deleted and the matching counter decremented. -/
lemma removeVote_invariant (db : Db) (c v : String) (h : VoteInvariant db) :
    VoteInvariant (removeVote db c v) := by
  obtain ⟨hids, hfresh, hpairs, hcnt⟩ := h
  unfold removeVote
  cases hfind : getVote db c v with
  | none =>
    exact ⟨hids, hfresh, hpairs, hcnt⟩
  | some ex =>
    dsimp only
    obtain ⟨l1, l2, hL, hfail, hpex⟩ := find?_decomp _ db.votes ex hfind
    obtain ⟨hb1, hb2⟩ := Bool.and_eq_true_iff.mp hpex
    have hexc : ex.confessionId = c := eq_of_beq hb1
    rw [hL] at hids hfresh hpairs
    have hA := List.pairwise_append.mp hids
    have hB := List.pairwise_cons.mp hA.2.1
    have hl1id : ∀ a ∈ l1, a.id ≠ ex.id := fun a ha =>
      hA.2.2 a ha ex (List.mem_cons_self _ _)
    have hl2id : ∀ b ∈ l2, b.id ≠ ex.id := fun b hb => (hB.1 b hb).symm
    have hfilter : db.votes.filter (fun w => w.id != ex.id) = l1 ++ l2 := by
      rw [hL, List.filter_append, List.filter_cons,
        filter_ne_of_ne_id ex.id l1 hl1id, filter_ne_of_ne_id ex.id l2 hl2id,
        bne_self_eq_false]
      simp
    have hP := List.pairwise_append.mp hpairs
    have hQ := List.pairwise_cons.mp hP.2.1
    have hids3 : (l1 ++ l2).Pairwise (fun a b => a.id ≠ b.id) :=
      List.pairwise_append.mpr
        ⟨hA.1, hB.2, fun a ha b hb => hA.2.2 a ha b (List.mem_cons_of_mem _ hb)⟩
    have hpairs3 : (l1 ++ l2).Pairwise
        (fun a b => a.confessionId ≠ b.confessionId ∨ a.visitorId ≠ b.visitorId) :=
      List.pairwise_append.mpr
        ⟨hP.1, hQ.2, fun a ha b hb => hP.2.2 a ha b (List.mem_cons_of_mem _ hb)⟩
    have hfr : ∀ w ∈ l1 ++ l2, w.id < db.nextVoteId := by
      intro w hw
      rcases List.mem_append.mp hw with hw | hw
      · exact hfresh w (List.mem_append.mpr (Or.inl hw))
      · exact hfresh w (List.mem_append.mpr (Or.inr (List.mem_cons_of_mem _ hw)))
    have hcntold : ∀ x t', cntV db.votes x t'
        = cntV l1 x t' + cntV l2 x t'
          + (if (ex.confessionId == x && ex.voteType == t') = true then 1 else 0) := by
      intro x t'
      rw [hL, cntV_append, cntV_cons]
      split <;> omega
    have hoff : ∀ x, x ≠ c → ∀ t', cntV (l1 ++ l2) x t' = cntV db.votes x t' := by
      intro x hx t'
      have hbx : (ex.confessionId == x) = false := by
        rw [hexc]
        exact beq_eq_false_iff_ne.mpr (fun hcc => hx hcc.symm)
      rw [hcntold, cntV_append, hbx]
      simp
    cases hex : ex.voteType with
    | like =>
      have hcond : (VoteType.like == VoteType.like) = true := rfl
      rw [if_pos hcond, hfilter]
      refine ⟨hids3, hfr, hpairs3, ?_⟩
      refine counters_after_bump db.confessions db.votes (l1 ++ l2) c (-1) 0
        (fun cf hcf => hcnt cf hcf) ?_ ?_ ?_
      · rw [cntV_append, hcntold, hb1, hex]
        simp
      · rw [cntV_append, hcntold, hb1, hex]
        simp
      · intro x hx
        exact ⟨hoff x hx VoteType.like, hoff x hx VoteType.dislike⟩
    | dislike =>
      have hcond : ¬ ((VoteType.dislike == VoteType.like) = true) := by simp
      rw [if_neg hcond, hfilter]
      refine ⟨hids3, hfr, hpairs3, ?_⟩
      refine counters_after_bump db.confessions db.votes (l1 ++ l2) c 0 (-1)
        (fun cf hcf => hcnt cf hcf) ?_ ?_ ?_
      · rw [cntV_append, hcntold, hb1, hex]
        simp
      · rw [cntV_append, hcntold, hb1, hex]
        simp
      · intro x hx
        exact ⟨hoff x hx VoteType.like, hoff x hx VoteType.dislike⟩

/-- After `createOrUpdateVote` there is exactly one vote row visible for
the pair, and it carries the requested type. -/
lemma createOrUpdateVote_getVote (db : Db) (c v : String) (t : VoteType)
    (h : VoteInvariant db) :
    ∃ w, getVote (createOrUpdateVote db c v t) c v = some w ∧ w.voteType = t := by
  obtain ⟨hids, hfresh, hpairs, hcnt⟩ := h
  unfold createOrUpdateVote
  cases hfind : getVote db c v with
  | none =>
    dsimp only
    have hp : ∀ w ∈ db.votes, (w.confessionId == c && w.visitorId == v) = false := by
      intro w hw
      have hnone : db.votes.find? (fun w => w.confessionId == c && w.visitorId == v) = none :=
        hfind
      have hnp := List.find?_eq_none.mp hnone w hw
      cases hx : (w.confessionId == c && w.visitorId == v) with
      | true => exact absurd hx hnp
      | false => rfl
    have hpnew : (((⟨db.nextVoteId, c, v, t⟩ : Vote).confessionId == c) &&
        ((⟨db.nextVoteId, c, v, t⟩ : Vote).visitorId == v)) = true := by
      dsimp only
      rw [beq_self_eq_true, beq_self_eq_true]
      rfl
    have hgv : getVote
        { confessions := db.confessions,
          votes := db.votes ++ [(⟨db.nextVoteId, c, v, t⟩ : Vote)],
          nextVoteId := db.nextVoteId + 1 } c v = some ⟨db.nextVoteId, c, v, t⟩ := by
      unfold getVote
      dsimp only
      rw [find?_append_of_none _ _ _ hp]
      simp [List.find?, hpnew]
    refine ⟨⟨db.nextVoteId, c, v, t⟩, ?_, rfl⟩
    by_cases ht : (t == VoteType.like) = true
    · rw [if_pos ht]
      exact hgv
    · rw [if_neg ht]
      exact hgv
  | some ex =>
    dsimp only
    by_cases hsame : (ex.voteType == t) = true
    · rw [if_pos hsame]
      exact ⟨ex, hfind, eq_of_beq hsame⟩
    · rw [if_neg hsame]
      obtain ⟨l1, l2, hL, hfail, hpex⟩ := find?_decomp _ db.votes ex hfind
      rw [hL] at hids
      have hA := List.pairwise_append.mp hids
      have hB := List.pairwise_cons.mp hA.2.1
      have hl1id : ∀ a ∈ l1, a.id ≠ ex.id := fun a ha =>
        hA.2.2 a ha ex (List.mem_cons_self _ _)
      have hl2id : ∀ b ∈ l2, b.id ≠ ex.id := fun b hb => (hB.1 b hb).symm
      have hmap : db.votes.map
          (fun w => if (w.id == ex.id) = true then { w with voteType := t } else w)
          = l1 ++ ({ ex with voteType := t } : Vote) :: l2 := by
        rw [hL, List.map_append, List.map_cons,
          map_update_of_ne_id t ex.id l1 hl1id, map_update_of_ne_id t ex.id l2 hl2id,
          beq_self_eq_true, if_pos rfl]
      refine ⟨{ ex with voteType := t }, ?_, rfl⟩
      unfold getVote bumpCounters
      rw [hmap]
      rw [find?_append_of_none _ _ _ hfail]
      simp [List.find?, hpex]

/-- After `removeVote` no vote row is visible for the pair. -/
lemma removeVote_getVote (db : Db) (c v : String) (h : VoteInvariant db) :
    getVote (removeVote db c v) c v = none := by
  obtain ⟨hids, hfresh, hpairs, hcnt⟩ := h
  unfold removeVote
  cases hfind : getVote db c v with
  | none => exact hfind
  | some ex =>
    dsimp only
    obtain ⟨l1, l2, hL, hfail, hpex⟩ := find?_decomp _ db.votes ex hfind
    obtain ⟨hb1, hb2⟩ := Bool.and_eq_true_iff.mp hpex
    have hexc : ex.confessionId = c := eq_of_beq hb1
    have hexv : ex.visitorId = v := eq_of_beq hb2
    rw [hL] at hids hpairs
    have hA := List.pairwise_append.mp hids
    have hB := List.pairwise_cons.mp hA.2.1
    have hl1id : ∀ a ∈ l1, a.id ≠ ex.id := fun a ha =>
      hA.2.2 a ha ex (List.mem_cons_self _ _)
    have hl2id : ∀ b ∈ l2, b.id ≠ ex.id := fun b hb => (hB.1 b hb).symm
    have hfilter : db.votes.filter (fun w => w.id != ex.id) = l1 ++ l2 := by
      rw [hL, List.filter_append, List.filter_cons,
        filter_ne_of_ne_id ex.id l1 hl1id, filter_ne_of_ne_id ex.id l2 hl2id,
        bne_self_eq_false]
      simp
    have hP := List.pairwise_append.mp hpairs
    have hQ := List.pairwise_cons.mp hP.2.1
    have hl2p : ∀ b ∈ l2, (b.confessionId == c && b.visitorId == v) = false := by
      intro b hb
      rcases hQ.1 b hb with hne | hne
      · have hbf : (b.confessionId == c) = false := by
          rw [hexc] at hne
          exact beq_eq_false_iff_ne.mpr (fun hcc => hne hcc.symm)
        simp [hbf]
      · have hbf : (b.visitorId == v) = false := by
          rw [hexv] at hne
          exact beq_eq_false_iff_ne.mpr (fun hcc => hne hcc.symm)
        simp [hbf]
    have hgv : getVote
        { confessions := db.confessions,
          votes := db.votes.filter (fun w => w.id != ex.id),
          nextVoteId := db.nextVoteId } c v = none := by
      unfold getVote
      dsimp only
      rw [hfilter, find?_append_of_none _ _ _ hfail]
      apply List.find?_eq_none.mpr
      intro x hx
      rw [hl2p x hx]
      simp
    by_cases hty : (ex.voteType == VoteType.like) = true
    · rw [if_pos hty]
      exact hgv
    · rw [if_neg hty]
      exact hgv

/-- C6: vote reconciliation invariant.  Both vote mutations preserve the
invariant that every confession's likes/dislikes counters equal the
number of its like/dislike vote rows and that each (confession, visitor)
pair has at most one row; repeating the same type is a no-op, any vote
cast leaves exactly one row of the requested type for the pair, and
removal leaves none. -/
theorem C6_vote_reconciliation (db : Db) (c v : String) (t : VoteType)
    (h : VoteInvariant db) :
    VoteInvariant (createOrUpdateVote db c v t) ∧
    VoteInvariant (removeVote db c v) ∧
    (∀ ex, getVote db c v = some ex → ex.voteType = t →
      createOrUpdateVote db c v t = db) ∧
    (∃ w, getVote (createOrUpdateVote db c v t) c v = some w ∧ w.voteType = t) ∧
    getVote (removeVote db c v) c v = none := by
  refine ⟨?_, removeVote_invariant db c v h, ?_,
    createOrUpdateVote_getVote db c v t h, removeVote_getVote db c v h⟩
  · cases hfind : getVote db c v with
    | none => exact createOrUpdateVote_inv_none db c v t h hfind
    | some ex => exact createOrUpdateVote_inv_some db c v t ex h hfind
  · intro ex hfind hteq
    unfold createOrUpdateVote
    rw [hfind]
    dsimp only
    rw [if_pos (beq_iff_eq.mpr hteq)]

/-- A small store satisfying the invariant: one confession with one like
from visitor u1. -/
def sampleDb : Db :=
  ⟨[⟨"c1", "x", "x", "Wisdom", 0, none, false, false, 1, 0, 50, none⟩],
   [⟨0, "c1", "u1", VoteType.like⟩], 1⟩

/-- Witness for C6: the invariant holds on the sample store and is
preserved when visitor u1 switches the like to a dislike. -/
theorem C6_vote_reconciliation_witness :
    VoteInvariant sampleDb ∧
    VoteInvariant (createOrUpdateVote sampleDb ("c1") "u1" VoteType.dislike) :=
  ⟨⟨List.pairwise_singleton _ _, by decide, List.pairwise_singleton _ _, by decide⟩,
   (C6_vote_reconciliation sampleDb ("c1") "u1" VoteType.dislike
     ⟨List.pairwise_singleton _ _, by decide, List.pairwise_singleton _ _, by decide⟩).1⟩

end Speak
